import Mathlib

/-!
Shallow embedding of the `usePipeSDK` hook loader from
`react-pipe-media-recorder` (src/index.ts).

The loader keeps module-level mutable state (`loadingPromise`, `loadError`,
`loadAttempts`), inserts a script and a stylesheet tag into the document,
retries failed loads up to `MAX_LOAD_ATTEMPTS`, joins concurrent invocations
on a shared promise, and attaches listeners to a script tag that is already
present in the document.

The embedding is an event-driven small-step semantics: `St` is the whole
world (window.PipeSDK, the module globals, DOM tags, promises, awaiting
continuations, per-hook caller records, and a log of callback invocations);
`step` consumes one external event (a hook invocation, a callback-ref
update, a script load/error event, or a foreign script insertion).
-/

set_option autoImplicit false

namespace PipeLoader

/-- The two URLs computed in the effect body (index.ts lines 120-128).
`loadFrom` is "s1" when `useS1` is set, otherwise "cdn". -/
def loadFromOf (useS1 : Bool) : String := if useS1 then "s1" else "cdn"

/-- `scriptSrc` (index.ts lines 122-124): versioned path when `buildSlug`
is present, fixed latest path otherwise. -/
def scriptSrcOf (useS1 : Bool) (buildSlug : Option String) : String :=
  match buildSlug with
  | some slug =>
      "https://" ++ loadFromOf useS1 ++ ".addpipe.com/releases/2.0/" ++ slug ++ "/pipe.js"
  | none =>
      "https://" ++ loadFromOf useS1 ++ ".addpipe.com/2.0/pipe.min.js"

/-- `stylesheetHref` (index.ts lines 126-128). -/
def stylesheetHrefOf (useS1 : Bool) (buildSlug : Option String) : String :=
  match buildSlug with
  | some slug =>
      "https://" ++ loadFromOf useS1 ++ ".addpipe.com/releases/2.0/" ++ slug ++ "/pipe.css"
  | none =>
      "https://" ++ loadFromOf useS1 ++ ".addpipe.com/2.0/pipe.css"

/-- A `<script>` element currently in the document, identified by a fresh id
and carrying its `src` attribute. -/
structure ScriptTag where
  id : Nat
  src : String
deriving Repr, DecidableEq

/-- Status of a JS promise: pending, resolved with `window.PipeSDK`'s value
at resolve time, or rejected with an error message. -/
inductive PromStatus where
  | pending
  | resolvedP (v : Option Nat)
  | rejectedP (e : String)
deriving Repr, DecidableEq

/-- The `script.onload` / `script.onerror` closure pair installed by
`insertScriptAndStylesheet` (index.ts lines 138-151): it captures the
promise being settled and the inserting invocation (whose `callbackRef` it
reads on load). -/
structure InsHandler where
  tag : Nat
  prom : Nat
  caller : Nat
deriving Repr, DecidableEq

/-- The `addEventListener('load'/'error')` pair attached to an existing
script tag (index.ts lines 209-223); it settles the attachment promise. -/
structure AttListener where
  tag : Nat
  prom : Nat
deriving Repr, DecidableEq

/-- The continuation suspended at `await loadingPromise`
(index.ts lines 184-199 and 226-241): the awaiting invocation, the
`existingScript` tag it captured, and its own `scriptSrc`/`stylesheetHref`
closed over for the retry path. -/
structure Waiter where
  prom : Nat
  caller : Nat
  tagId : Nat
  src : String
  css : String
deriving Repr, DecidableEq

/-- One hook invocation: its `callbackRef.current` (callbacks are named by
numbers), and its `isLoaded` / `error` React state. -/
structure Caller where
  id : Nat
  cb : Nat
  isLoaded : Bool
  error : Option String
deriving Repr, DecidableEq

/-- A record of one call of a caller-supplied callback: which invocation,
which callback function, and the value of `window.PipeSDK` passed to it. -/
structure CbCall where
  caller : Nat
  cb : Nat
  arg : Option Nat
deriving Repr, DecidableEq

/-- The whole world: `window.PipeSDK`, the module-level loader globals,
the document (script tags and stylesheet hrefs), promises with their
waiters, the hook invocations, and the callback-invocation log.
`scriptInsertLog` / `styleInsertLog` record every insertion the loader ever
performed (tags removed later stay in the log). -/
structure St where
  pipeSDK : Option Nat
  loadingPromise : Option Nat
  loadError : Option String
  loadAttempts : Nat
  scripts : List ScriptTag
  stylesheets : List String
  scriptInsertLog : List String
  styleInsertLog : List String
  insHandlers : List InsHandler
  attListeners : List AttListener
  promises : List (Nat × PromStatus)
  waiters : List Waiter
  callers : List Caller
  cbLog : List CbCall
  nextId : Nat
deriving Repr, DecidableEq

/-- index.ts line 106. -/
def MAX_LOAD_ATTEMPTS : Nat := 3

/-- The module's initial state: no SDK, no promise, no error, zero attempts,
empty document. -/
def initSt : St :=
  { pipeSDK := none, loadingPromise := none, loadError := none,
    loadAttempts := 0, scripts := [], stylesheets := [],
    scriptInsertLog := [], styleInsertLog := [], insHandlers := [],
    attListeners := [], promises := [], waiters := [], callers := [],
    cbLog := [], nextId := 0 }

/-- The error message built at index.ts line 149. -/
def mkLoadErrorMsg (n : Nat) : String :=
  "Failed to load PipeSDK script (attempt " ++ toString n ++ "/" ++
    toString MAX_LOAD_ATTEMPTS ++ ")"

/-- Apply `f` to the caller record with the given id (models a `setState` /
`useRef` mutation of that invocation). -/
def updCaller (c : Nat) (f : Caller → Caller) (s : St) : St :=
  { s with callers := s.callers.map (fun x => if x.id == c then f x else x) }

/-- `callbackRef.current` of the invocation `c`. -/
def getCb (c : Nat) (s : St) : Nat :=
  match s.callers.find? (fun x => x.id == c) with
  | some x => x.cb
  | none => 0

/-- `callbackRef.current(window.PipeSDK)` for invocation `c`: appends the
call to the log with the current value of `window.PipeSDK`. -/
def invokeCb (c : Nat) (s : St) : St :=
  { s with cbLog := s.cbLog ++ [⟨c, getCb c s, s.pipeSDK⟩] }

/-- Status of promise `p` (pending when unknown). -/
def findPromStatus (p : Nat) (s : St) : PromStatus :=
  match s.promises.find? (fun q => q.1 == p) with
  | some q => q.2
  | none => PromStatus.pending

/-- Settle promise `p` to the given status. -/
def setPromStatus (p : Nat) (st : PromStatus) (s : St) : St :=
  { s with promises := s.promises.map (fun q => if q.1 == p then (q.1, st) else q) }

/-- Detach and return the continuations awaiting promise `p`. -/
def takeWaiters (p : Nat) (s : St) :
    List Waiter × St :=
  (s.waiters.filter (fun w => w.prom == p),
   { s with waiters := s.waiters.filter (fun w => !(w.prom == p)) })

/-- `insertScriptAndStylesheet` (index.ts lines 130-161): bumps
`loadAttempts`, creates a fresh promise stored in `loadingPromise`, creates
a script tag with `onload`/`onerror` handlers and appends it to the head,
then appends the stylesheet link. -/
def insertScriptAndStylesheet (callerId : Nat) (src css : String) (s : St) : St :=
  let s1 : St := { s with loadAttempts := s.loadAttempts + 1 }
  let promId := s1.nextId
  let tagId := s1.nextId + 1
  { s1 with
    nextId := s1.nextId + 2,
    loadingPromise := some promId,
    promises := s1.promises ++ [(promId, PromStatus.pending)],
    scripts := s1.scripts ++ [⟨tagId, src⟩],
    scriptInsertLog := s1.scriptInsertLog ++ [src],
    insHandlers := s1.insHandlers ++ [⟨tagId, promId, callerId⟩],
    stylesheets := s1.stylesheets ++ [css],
    styleInsertLog := s1.styleInsertLog ++ [css] }

/-- Outcome a suspended `await` resumes with. -/
inductive Outcome where
  | ok (v : Option Nat)
  | err (e : String)
deriving Repr, DecidableEq

/-- The code following `await loadingPromise` (index.ts lines 185-199 and
227-241, both awaits have identical bodies): on resolution, if
`window.PipeSDK` is set, call the current callback with it and set
`isLoaded`; on rejection, set the invocation's `error`, and if attempts
remain, remove the captured `existingScript`, clear `loadingPromise`, and
re-run `insertScriptAndStylesheet`. -/
def runWaiterCont (w : Waiter) (out : Outcome) (s : St) : St :=
  match out with
  | Outcome.ok _ =>
      match s.pipeSDK with
      | some _ =>
          updCaller w.caller (fun c => { c with isLoaded := true })
            (invokeCb w.caller s)
      | none => s
  | Outcome.err e =>
      let s1 := updCaller w.caller (fun c => { c with error := some e }) s
      if s1.loadAttempts < MAX_LOAD_ATTEMPTS then
        let s2 : St := { s1 with
          scripts := s1.scripts.filter (fun t => !(t.id == w.tagId)),
          loadingPromise := none }
        insertScriptAndStylesheet w.caller w.src w.css s2
      else s1

/-- Resume a queue of suspended awaits in order (the microtask queue after
a promise settles). -/
def runWaiters (ws : List Waiter) (out : Outcome) (s : St) : St :=
  match ws with
  | [] => s
  | w :: rest => runWaiters rest out (runWaiterCont w out s)

/-- `script.onload` of an inserted tag (index.ts lines 138-146): clear
`loadError`, reset `loadAttempts`, resolve the promise with
`window.PipeSDK`, then (still synchronously) call the inserting
invocation's current callback if the SDK is present; the queued waiters
resume afterwards. -/
def insOnLoad (h : InsHandler) (s : St) : St :=
  let s1 : St := { s with loadError := none, loadAttempts := 0 }
  let pair := takeWaiters h.prom s1
  let s2 := setPromStatus h.prom (PromStatus.resolvedP pair.2.pipeSDK) pair.2
  let s3 :=
    match s2.pipeSDK with
    | some _ =>
        updCaller h.caller (fun c => { c with isLoaded := true })
          (invokeCb h.caller s2)
    | none => s2
  runWaiters pair.1 (Outcome.ok s3.pipeSDK) s3

/-- `script.onerror` of an inserted tag (index.ts lines 148-151): store the
attempt-stamped error in `loadError` and reject the promise; the waiters
resume with the rejection. -/
def insOnError (h : InsHandler) (s : St) : St :=
  let e := mkLoadErrorMsg s.loadAttempts
  let s1 : St := { s with loadError := some e }
  let pair := takeWaiters h.prom s1
  let s2 := setPromStatus h.prom (PromStatus.rejectedP e) pair.2
  runWaiters pair.1 (Outcome.err e) s2

/-- The `onLoad` listener attached to an existing tag (index.ts lines
209-213): remove both listeners and resolve the attachment promise with
`window.PipeSDK`. -/
def attOnLoad (l : AttListener) (s : St) : St :=
  let s1 : St := { s with
    attListeners := s.attListeners.filter (fun x => !(x == l)) }
  let pair := takeWaiters l.prom s1
  let s2 := setPromStatus l.prom (PromStatus.resolvedP pair.2.pipeSDK) pair.2
  runWaiters pair.1 (Outcome.ok s2.pipeSDK) s2

/-- The `onError` listener attached to an existing tag (index.ts lines
215-220): remove both listeners, set `loadError` and reject. -/
def attOnError (l : AttListener) (s : St) : St :=
  let s1 : St := { s with
    attListeners := s.attListeners.filter (fun x => !(x == l)) }
  let e := "Script failed to load"
  let s2 : St := { s1 with loadError := some e }
  let pair := takeWaiters l.prom s2
  let s3 := setPromStatus l.prom (PromStatus.rejectedP e) pair.2
  runWaiters pair.1 (Outcome.err e) s3

/-- Fire the `load` listeners attached to a tag, in attachment order. -/
def attLoadAll (ls : List AttListener) (s : St) : St :=
  match ls with
  | [] => s
  | l :: rest => attLoadAll rest (attOnLoad l s)

/-- Fire the `error` listeners attached to a tag, in attachment order. -/
def attErrorAll (ls : List AttListener) (s : St) : St :=
  match ls with
  | [] => s
  | l :: rest => attErrorAll rest (attOnError l s)

/-- The browser delivers a `load` event to script tag `t`. Executing the
script sets `window.PipeSDK` when the script defines it (`newSdk`); then
the tag's inserted `onload` handler (if any) and its attached listeners
fire. Tags no longer in the document fire nothing. -/
def fireLoad (t : Nat) (newSdk : Option Nat) (s : St) : St :=
  if (s.scripts.find? (fun tag => tag.id == t)).isSome then
    let s1 : St := { s with pipeSDK := newSdk.orElse (fun _ => s.pipeSDK) }
    let s2 :=
      match s1.insHandlers.find? (fun h => h.tag == t) with
      | some h => insOnLoad h s1
      | none => s1
    attLoadAll (s2.attListeners.filter (fun l => l.tag == t)) s2
  else s

/-- The browser delivers an `error` event to script tag `t`. -/
def fireError (t : Nat) (s : St) : St :=
  if (s.scripts.find? (fun tag => tag.id == t)).isSome then
    let s2 :=
      match s.insHandlers.find? (fun h => h.tag == t) with
      | some h => insOnError h s
      | none => s
    attErrorAll (s2.attListeners.filter (fun l => l.tag == t)) s2
  else s

/-- Joining the current `loadingPromise` (index.ts lines 182-199): a
pending promise stores the continuation; a settled one resumes it
immediately. -/
def joinProm (callerId : Nat) (src css : String) (tagId p : Nat) (s0 : St) : St :=
  match findPromStatus p s0 with
  | PromStatus.pending =>
      { s0 with waiters := s0.waiters ++ [⟨p, callerId, tagId, src, css⟩] }
  | PromStatus.resolvedP v =>
      runWaiterCont ⟨p, callerId, tagId, src, css⟩ (Outcome.ok v) s0
  | PromStatus.rejectedP e =>
      runWaiterCont ⟨p, callerId, tagId, src, css⟩ (Outcome.err e) s0

/-- The existing-tag-with-no-promise handling (index.ts lines 200-242):
build an attachment promise (resolving at once if `window.PipeSDK`
appeared, otherwise attaching load/error listeners to the tag) and await
it. -/
def attachToTag (callerId : Nat) (src css : String) (tagId : Nat) (s0 : St) : St :=
  let promId := s0.nextId
  let s1 : St := { s0 with nextId := s0.nextId + 1 }
  match s1.pipeSDK with
  | some v =>
      let s2 : St := { s1 with
        loadingPromise := some promId,
        promises := s1.promises ++ [(promId, PromStatus.resolvedP (some v))] }
      runWaiterCont ⟨promId, callerId, tagId, src, css⟩
        (Outcome.ok (some v)) s2
  | none =>
      { s1 with
        loadingPromise := some promId,
        promises := s1.promises ++ [(promId, PromStatus.pending)],
        attListeners := s1.attListeners ++ [⟨tagId, promId⟩],
        waiters := s1.waiters ++ [⟨promId, callerId, tagId, src, css⟩] }

/-- The existing-tag handling of `loadPipeSDK` (index.ts lines 180-242):
join the in-flight promise when one exists, otherwise attach to the tag. -/
def joinOrAttach (callerId : Nat) (src css : String) (tagId : Nat) (s0 : St) : St :=
  match s0.loadingPromise with
  | some p => joinProm callerId src css tagId p s0
  | none => attachToTag callerId src css tagId s0

/-- The body of `loadPipeSDK` (index.ts lines 163-249), run on the state
with the invocation already registered:
  - if `window.PipeSDK` exists, calls the callback and sets `isLoaded`;
  - else if attempts are exhausted and an error is stored, sets `error`;
  - else if a tag with this invocation's `scriptSrc` exists, joins or
    attaches;
  - else inserts the script and stylesheet. -/
def invokeBody (callerId : Nat) (src css : String) (s0 : St) : St :=
  match s0.pipeSDK with
  | some _ =>
      updCaller callerId (fun c => { c with isLoaded := true })
        (invokeCb callerId s0)
  | none =>
      if MAX_LOAD_ATTEMPTS ≤ s0.loadAttempts ∧ s0.loadError.isSome then
        updCaller callerId (fun c => { c with error := s0.loadError }) s0
      else
        match s0.scripts.find? (fun t => t.src == src) with
        | some tag => joinOrAttach callerId src css tag.id s0
        | none => insertScriptAndStylesheet callerId src css s0

/-- One call of `usePipeSDK` running its loading effect: register the
invocation's state, compute the URLs from the options, and run the body. -/
def invoke (callerId cbId : Nat) (useS1 : Bool) (buildSlug : Option String)
    (s : St) : St :=
  invokeBody callerId (scriptSrcOf useS1 buildSlug) (stylesheetHrefOf useS1 buildSlug)
    { s with callers := s.callers ++ [⟨callerId, cbId, false, none⟩] }

/-- The `useEffect` with dependency `[callback]` (index.ts lines 115-117):
update `callbackRef.current` of an existing invocation. Runs when the
caller re-renders with a new callback; the loading effect (dependencies
`[useS1, buildSlug]`) does not re-run. -/
def updateCallback (callerId cbId : Nat) (s : St) : St :=
  updCaller callerId (fun c => { c with cb := cbId }) s

/-- External events driving the system. `foreignInsert` is a script tag
with the given src added by an unrelated actor (not by this loader). -/
inductive Event where
  | invoke (caller cb : Nat) (useS1 : Bool) (buildSlug : Option String)
  | updateCb (caller cb : Nat)
  | load (tag : Nat) (sdk : Option Nat)
  | failTag (tag : Nat)
  | foreignInsert (src : String)
deriving Repr, DecidableEq

/-- One step of the world. -/
def step (s : St) (e : Event) : St :=
  match e with
  | Event.invoke c cb u b => invoke c cb u b s
  | Event.updateCb c cb => updateCallback c cb s
  | Event.load t sdk => fireLoad t sdk s
  | Event.failTag t => fireError t s
  | Event.foreignInsert src =>
      { s with scripts := s.scripts ++ [⟨s.nextId, src⟩], nextId := s.nextId + 1 }

/-- Run a sequence of events from a state. -/
def run (s : St) (evs : List Event) : St := evs.foldl step s

end PipeLoader

namespace PipeLoader

/-! ### Spec-side decomposition of the URLs (for the Resource Descriptor
Builder claims): the path part after the delivery host. -/

/-- Modelled from the spec's wording for the URL rule: the executable URL's
path after the host, versioned when a build identifier is present. -/
def scriptPathOf (buildSlug : Option String) : String :=
  match buildSlug with
  | some slug => ".addpipe.com/releases/2.0/" ++ slug ++ "/pipe.js"
  | none => ".addpipe.com/2.0/pipe.min.js"

/-- Modelled from the spec's wording for the URL rule: the style URL's path
after the host. -/
def stylePathOf (buildSlug : Option String) : String :=
  match buildSlug with
  | some slug => ".addpipe.com/releases/2.0/" ++ slug ++ "/pipe.css"
  | none => ".addpipe.com/2.0/pipe.css"

/-- Caller record of invocation `i` as it is first registered in the
same-tick concurrent-start scenario of C1 (callback `cbs i`, not yet
loaded, no error). -/
def mkJoinCaller (cbs : Nat → Nat) (i : Nat) : Caller :=
  ⟨i, cbs i, false, none⟩

/-- Waiter of joining invocation `i` on the first insertion's promise
(promise id 0, script tag id 1) in the C1 scenario with configuration
`(u, b)`. -/
def mkJoinWaiter (u : Bool) (b : Option String) (i : Nat) : Waiter :=
  ⟨0, i, 1, scriptSrcOf u b, stylesheetHrefOf u b⟩

/-- The C1 event sequence: `n + 1` same-tick invocations with the same
configuration `(u, b)`, then the script's load event delivering the
runtime object `sdk`. -/
def c1Events (n : Nat) (cbs : Nat → Nat) (u : Bool) (b : Option String)
    (sdk : Nat) : List Event :=
  Event.invoke 0 (cbs 0) u b ::
    ((List.range' 1 n).map (fun i => Event.invoke i (cbs i) u b) ++
      [Event.load 1 (some sdk)])

/-- The state after the first invocation inserted the script (promise 0,
tag 1) and `n` further same-configuration invocations joined its promise. -/
def c1Joined (n : Nat) (cbs : Nat → Nat) (u : Bool) (b : Option String) : St :=
  { pipeSDK := none, loadingPromise := some 0, loadError := none,
    loadAttempts := 1,
    scripts := [⟨1, scriptSrcOf u b⟩],
    stylesheets := [stylesheetHrefOf u b],
    scriptInsertLog := [scriptSrcOf u b],
    styleInsertLog := [stylesheetHrefOf u b],
    insHandlers := [⟨1, 0, 0⟩], attListeners := [],
    promises := [(0, PromStatus.pending)],
    waiters := (List.range' 1 n).map (mkJoinWaiter u b),
    callers := mkJoinCaller cbs 0 :: (List.range' 1 n).map (mkJoinCaller cbs),
    cbLog := [], nextId := 2 }

/-- The state reached in the C1 scenario right after the inserted script's
`onload` handler ran (promise resolved, inserter's callback logged and its
record marked loaded) and before the joined awaits resume. -/
def c1Resolved (n : Nat) (cbs : Nat → Nat) (u : Bool) (b : Option String)
    (sdk : Nat) : St :=
  { pipeSDK := some sdk, loadingPromise := some 0, loadError := none,
    loadAttempts := 0,
    scripts := [⟨1, scriptSrcOf u b⟩],
    stylesheets := [stylesheetHrefOf u b],
    scriptInsertLog := [scriptSrcOf u b],
    styleInsertLog := [stylesheetHrefOf u b],
    insHandlers := [⟨1, 0, 0⟩], attListeners := [],
    promises := [(0, PromStatus.resolvedP (some sdk))],
    waiters := [],
    callers := (mkJoinCaller cbs 0 :: (List.range' 1 n).map (mkJoinCaller cbs)).map
      (fun x => if x.id == 0 then ({ x with isLoaded := true } : Caller) else x),
    cbLog := [⟨0, cbs 0, some sdk⟩], nextId := 2 }

/-- The safety predicate of C10: every logged callback call received a
present runtime object (the argument recorded is `window.PipeSDK` as read
at the call site), and a caller's `isLoaded` is true only when the runtime
object is present. -/
def Inv (s : St) : Prop :=
  (∀ e ∈ s.cbLog, e.arg.isSome = true) ∧
  (∀ c ∈ s.callers, c.isLoaded = true → s.pipeSDK.isSome = true)

/-- C8: the computed executable and style URLs are a pure, deterministic
function of the source selection and optional build identifier: with a
build identifier both URLs use the versioned path keyed by it, otherwise
the fixed latest path; only the host part (`s1` vs `cdn`) depends on the
source selection; identical inputs give identical URLs. -/
theorem claim8_urls_pure_deterministic :
    (∀ (u : Bool) (b : Option String),
        scriptSrcOf u b = "https://" ++ loadFromOf u ++ scriptPathOf b ∧
        stylesheetHrefOf u b = "https://" ++ loadFromOf u ++ stylePathOf b) ∧
    (∀ (u : Bool) (slug : String),
        scriptSrcOf u (some slug) =
          "https://" ++ loadFromOf u ++ ".addpipe.com/releases/2.0/" ++ slug ++ "/pipe.js" ∧
        stylesheetHrefOf u (some slug) =
          "https://" ++ loadFromOf u ++ ".addpipe.com/releases/2.0/" ++ slug ++ "/pipe.css") ∧
    (∀ u : Bool,
        scriptSrcOf u none = "https://" ++ loadFromOf u ++ ".addpipe.com/2.0/pipe.min.js" ∧
        stylesheetHrefOf u none = "https://" ++ loadFromOf u ++ ".addpipe.com/2.0/pipe.css") ∧
    (loadFromOf true = "s1" ∧ loadFromOf false = "cdn") ∧
    (∀ (u u' : Bool) (b b' : Option String), u = u' → b = b' →
        scriptSrcOf u b = scriptSrcOf u' b' ∧
        stylesheetHrefOf u b = stylesheetHrefOf u' b') := by
  refine ⟨?_, ?_, ?_, ⟨rfl, rfl⟩, ?_⟩
  · intro u b
    cases b <;>
      simp [scriptSrcOf, stylesheetHrefOf, scriptPathOf, stylePathOf, String.append_assoc]
  · intro u slug; exact ⟨rfl, rfl⟩
  · intro u; exact ⟨rfl, rfl⟩
  · intro u u' b b' hu hb; subst hu; subst hb; exact ⟨rfl, rfl⟩

/-- Witness for C8 at a concrete input. -/
theorem claim8_urls_witness :
    true = true ∧ (some "build-42" : Option String) = some "build-42" ∧
    scriptSrcOf true (some "build-42") = scriptSrcOf true (some "build-42") ∧
    stylesheetHrefOf true (some "build-42") = stylesheetHrefOf true (some "build-42") :=
  ⟨rfl, rfl,
    claim8_urls_pure_deterministic.2.2.2.2 true true (some "build-42") (some "build-42") rfl rfl⟩

/-- C2 counterexample: with every attempt failing, after the single initial
insertion's failure and no further caller action (only error events), the
failed tag is not removed, no fresh insertion happens, and the total never
reaches 3: the retry is not performed by the loader on its own. -/
theorem claim2_counterexample_no_automatic_retry :
    (run initSt [Event.invoke 0 0 false none, Event.failTag 1]).scriptInsertLog.length = 1 ∧
    (run initSt [Event.invoke 0 0 false none, Event.failTag 1]).scripts =
      [⟨1, scriptSrcOf false none⟩] ∧
    (run initSt [Event.invoke 0 0 false none, Event.failTag 1]).loadError =
      some (mkLoadErrorMsg 1) ∧
    ¬ (run initSt [Event.invoke 0 0 false none, Event.failTag 1, Event.failTag 1,
        Event.failTag 1]).scriptInsertLog.length = 3 := by
  decide

/-- C2 amended: a failed attempt is retried (failed tag removed, fresh
insertion) only when an invocation observes the shared promise's rejection;
with an invocation arriving after each failure, exactly 3 insertions occur,
the stored error then reads attempt 3/3, and an invocation arriving after
exhaustion observes that stored error and performs no 4th insertion. -/
theorem claim2_amended_bounded_retry_via_observers :
    (run initSt [Event.invoke 0 0 false none, Event.failTag 1,
        Event.invoke 1 1 false none, Event.failTag 3,
        Event.invoke 2 2 false none, Event.failTag 5]).scriptInsertLog =
      [scriptSrcOf false none, scriptSrcOf false none, scriptSrcOf false none] ∧
    (run initSt [Event.invoke 0 0 false none, Event.failTag 1,
        Event.invoke 1 1 false none, Event.failTag 3,
        Event.invoke 2 2 false none, Event.failTag 5]).loadAttempts = 3 ∧
    (run initSt [Event.invoke 0 0 false none, Event.failTag 1,
        Event.invoke 1 1 false none, Event.failTag 3,
        Event.invoke 2 2 false none, Event.failTag 5]).loadError =
      some (mkLoadErrorMsg 3) ∧
    (run initSt [Event.invoke 0 0 false none, Event.failTag 1,
        Event.invoke 1 1 false none, Event.failTag 3,
        Event.invoke 2 2 false none, Event.failTag 5,
        Event.invoke 3 3 false none]).scriptInsertLog.length = 3 ∧
    (run initSt [Event.invoke 0 0 false none, Event.failTag 1,
        Event.invoke 1 1 false none, Event.failTag 3,
        Event.invoke 2 2 false none, Event.failTag 5,
        Event.invoke 3 3 false none]).callers.map Caller.error =
      [none, some (mkLoadErrorMsg 1), some (mkLoadErrorMsg 2), some (mkLoadErrorMsg 3)] := by
  decide

/-- C3 counterexample: the loader's shared state is not kept per resource
URL. After one insertion for the cdn URL and one for the s1 URL, the single
global attempt counter reads 2 (not 1 per URL), and a third invocation for
the cdn URL joins promise 2 — the promise created by the s1 URL's insertion
(its handler is on tag 3, whose src is the s1 URL) — not the cdn load's
promise 0. -/
theorem claim3_counterexample_state_not_per_url :
    (run initSt [Event.invoke 0 0 false none, Event.invoke 1 1 true none]).loadAttempts = 2 ∧
    ¬ (run initSt [Event.invoke 0 0 false none, Event.invoke 1 1 true none]).loadAttempts = 1 ∧
    (run initSt [Event.invoke 0 0 false none, Event.invoke 1 1 true none,
        Event.invoke 2 2 false none]).waiters =
      [⟨2, 2, 1, scriptSrcOf false none, stylesheetHrefOf false none⟩] ∧
    (run initSt [Event.invoke 0 0 false none, Event.invoke 1 1 true none,
        Event.invoke 2 2 false none]).insHandlers = [⟨1, 0, 0⟩, ⟨3, 2, 1⟩] ∧
    (run initSt [Event.invoke 0 0 false none, Event.invoke 1 1 true none,
        Event.invoke 2 2 false none]).scripts =
      [⟨1, scriptSrcOf false none⟩, ⟨3, scriptSrcOf true none⟩] ∧
    ¬ scriptSrcOf true none = scriptSrcOf false none := by
  decide

/-- C3 amended: the in-flight handle, last error and attempt counter are a
single process-wide triple shared by all resource URLs: every insertion,
whatever its URL, increments the one counter and overwrites the one handle,
and a joining caller receives whatever promise is globally current — here
the s1 URL's promise — rather than one belonging to its own URL. -/
theorem claim3_amended_loader_state_is_global :
    (∀ (s : St) (c : Nat) (src css : String),
        (insertScriptAndStylesheet c src css s).loadAttempts = s.loadAttempts + 1 ∧
        (insertScriptAndStylesheet c src css s).loadingPromise = some s.nextId) ∧
    (run initSt [Event.invoke 0 0 false none, Event.invoke 1 1 true none,
        Event.invoke 2 2 false none]).loadingPromise = some 2 ∧
    (run initSt [Event.invoke 0 0 false none, Event.invoke 1 1 true none,
        Event.invoke 2 2 false none]).waiters.map Waiter.prom = [2] := by
  refine ⟨fun s c src css => ⟨rfl, rfl⟩, ?_, ?_⟩ <;> decide

/-- C5: with a script tag for the computed URL already in the document
(inserted by a foreign actor, no loading promise) and no runtime object,
`usePipeSDK` inserts nothing, attaches load/error listeners to the existing
tag, and on that tag's load event invokes the caller's callback with the
runtime object and sets `isLoaded`. -/
theorem claim5_attaches_to_existing_tag (cb sdk : Nat) :
    (run initSt [Event.foreignInsert (scriptSrcOf false none),
        Event.invoke 0 cb false none]).scriptInsertLog = [] ∧
    (run initSt [Event.foreignInsert (scriptSrcOf false none),
        Event.invoke 0 cb false none]).styleInsertLog = [] ∧
    (run initSt [Event.foreignInsert (scriptSrcOf false none),
        Event.invoke 0 cb false none]).attListeners = [⟨0, 1⟩] ∧
    (run initSt [Event.foreignInsert (scriptSrcOf false none),
        Event.invoke 0 cb false none]).loadingPromise = some 1 ∧
    (run initSt [Event.foreignInsert (scriptSrcOf false none),
        Event.invoke 0 cb false none]).scripts = [⟨0, scriptSrcOf false none⟩] ∧
    (run initSt [Event.foreignInsert (scriptSrcOf false none),
        Event.invoke 0 cb false none,
        Event.load 0 (some sdk)]).cbLog = [⟨0, cb, some sdk⟩] ∧
    (run initSt [Event.foreignInsert (scriptSrcOf false none),
        Event.invoke 0 cb false none,
        Event.load 0 (some sdk)]).callers = [⟨0, cb, true, none⟩] ∧
    (run initSt [Event.foreignInsert (scriptSrcOf false none),
        Event.invoke 0 cb false none,
        Event.load 0 (some sdk)]).scriptInsertLog = [] := by
  refine ⟨rfl, rfl, rfl, rfl, rfl, rfl, rfl, rfl⟩

/-- C6: a callback supplied after loading started but before resolution is
the one invoked at resolution (the ref is read at resolution time), and a
callback-ref update alone changes no loader state: it re-runs no load. -/
theorem claim6_latest_callback_invoked (cb1 cb2 sdk : Nat) :
    (run initSt [Event.invoke 0 cb1 false none, Event.updateCb 0 cb2,
        Event.load 1 (some sdk)]).cbLog = [⟨0, cb2, some sdk⟩] ∧
    (∀ (s : St) (c cb : Nat),
        (step s (Event.updateCb c cb)).scriptInsertLog = s.scriptInsertLog ∧
        (step s (Event.updateCb c cb)).styleInsertLog = s.styleInsertLog ∧
        (step s (Event.updateCb c cb)).scripts = s.scripts ∧
        (step s (Event.updateCb c cb)).stylesheets = s.stylesheets ∧
        (step s (Event.updateCb c cb)).loadingPromise = s.loadingPromise ∧
        (step s (Event.updateCb c cb)).promises = s.promises ∧
        (step s (Event.updateCb c cb)).waiters = s.waiters ∧
        (step s (Event.updateCb c cb)).loadAttempts = s.loadAttempts) := by
  exact ⟨rfl, fun s c cb => ⟨rfl, rfl, rfl, rfl, rfl, rfl, rfl, rfl⟩⟩

/-- C7 counterexample: a transient failure is not invisible to the caller.
After the first failed attempt — with the retry running (a second insertion
is in flight) and attempts strictly below the cap — the joining
invocation's returned error is already populated. -/
theorem claim7_counterexample_transient_failure_sets_error :
    (run initSt [Event.invoke 0 0 false none, Event.invoke 1 1 false none,
        Event.failTag 1]).loadAttempts = 2 ∧
    (run initSt [Event.invoke 0 0 false none, Event.invoke 1 1 false none,
        Event.failTag 1]).loadAttempts < MAX_LOAD_ATTEMPTS ∧
    (run initSt [Event.invoke 0 0 false none, Event.invoke 1 1 false none,
        Event.failTag 1]).scriptInsertLog.length = 2 ∧
    ¬ (run initSt [Event.invoke 0 0 false none, Event.invoke 1 1 false none,
        Event.failTag 1]).callers.map Caller.error = [none, none] := by
  decide

/-- C7 amended: the returned error is populated on any rejection of the
shared promise that the invocation observes — transient (still retried)
ones included — while an invocation that never awaits (the inserter)
keeps error unset on a transient failure; after exhaustion, a fresh
invocation also receives the stored error. -/
theorem claim7_amended_error_on_observed_rejection :
    (run initSt [Event.invoke 0 0 false none, Event.invoke 1 1 false none,
        Event.failTag 1]).callers.map Caller.error =
      [none, some (mkLoadErrorMsg 1)] ∧
    (run initSt [Event.invoke 0 0 false none, Event.invoke 1 1 false none,
        Event.failTag 1]).loadAttempts < MAX_LOAD_ATTEMPTS ∧
    (run initSt [Event.invoke 10 10 false none, Event.failTag 1,
        Event.invoke 11 11 false none, Event.failTag 3,
        Event.invoke 12 12 false none, Event.failTag 5,
        Event.invoke 13 13 false none]).callers.map Caller.error =
      [none, some (mkLoadErrorMsg 1), some (mkLoadErrorMsg 2), some (mkLoadErrorMsg 3)] := by
  decide

/-- C9 counterexample: over a load lifetime with one retry, the loader
inserts the script twice and the stylesheet twice for the same resource
URL, and both stylesheet tags remain in the document simultaneously. -/
theorem claim9_counterexample_repeated_insertions_per_url :
    (run initSt [Event.invoke 0 0 false none, Event.invoke 1 1 false none,
        Event.failTag 1]).scriptInsertLog =
      [scriptSrcOf false none, scriptSrcOf false none] ∧
    (run initSt [Event.invoke 0 0 false none, Event.invoke 1 1 false none,
        Event.failTag 1]).styleInsertLog =
      [stylesheetHrefOf false none, stylesheetHrefOf false none] ∧
    (run initSt [Event.invoke 0 0 false none, Event.invoke 1 1 false none,
        Event.failTag 1]).stylesheets =
      [stylesheetHrefOf false none, stylesheetHrefOf false none] ∧
    ¬ (run initSt [Event.invoke 0 0 false none, Event.invoke 1 1 false none,
        Event.failTag 1]).scriptInsertLog.length = 1 ∧
    ¬ (run initSt [Event.invoke 0 0 false none, Event.invoke 1 1 false none,
        Event.failTag 1]).styleInsertLog.length = 1 := by
  decide

/-- C9 amended: each load attempt inserts exactly one script and one
stylesheet, so insertions per URL equal the number of attempts made for it
(failed script tags are removed before re-insertion, stylesheets
accumulate); on the failure-free path exactly one of each is inserted. -/
theorem claim9_amended_one_insertion_per_attempt :
    (∀ (s : St) (c : Nat) (src css : String),
        (insertScriptAndStylesheet c src css s).scriptInsertLog =
          s.scriptInsertLog ++ [src] ∧
        (insertScriptAndStylesheet c src css s).styleInsertLog =
          s.styleInsertLog ++ [css]) ∧
    (run initSt [Event.invoke 0 0 false none, Event.invoke 1 1 false none,
        Event.load 1 (some 42)]).scriptInsertLog = [scriptSrcOf false none] ∧
    (run initSt [Event.invoke 0 0 false none, Event.invoke 1 1 false none,
        Event.load 1 (some 42)]).styleInsertLog = [stylesheetHrefOf false none] := by
  exact ⟨fun s c src css => ⟨rfl, rfl⟩, by decide, by decide⟩

end PipeLoader

namespace PipeLoader

/-! ### Helper lemmas about list lookups under the caller-map updates. -/

/-- `find?` skips a prefix on which the predicate is everywhere false. -/
theorem find?_append_of_none {α : Type} (p : α → Bool) (l₁ l₂ : List α)
    (h : ∀ x ∈ l₁, p x = false) : (l₁ ++ l₂).find? p = l₂.find? p := by
  induction l₁ with
  | nil => rfl
  | cons a l ih =>
    rw [List.cons_append, List.find?_cons_of_neg _ (by simp [h a (List.mem_cons_self a l)])]
    exact ih (fun x hx => h x (List.mem_cons_of_mem a hx))

/-- The caller-record map is the identity on records whose id differs. -/
theorem map_upd_of_not_mem (l : List Caller) (c : Nat) (f : Caller → Caller)
    (h : ∀ x ∈ l, (x.id == c) = false) :
    l.map (fun x => if x.id == c then f x else x) = l := by
  induction l with
  | nil => rfl
  | cons a l ih =>
    rw [List.map_cons, if_neg (by simp [h a (List.mem_cons_self a l)]),
      ih (fun x hx => h x (List.mem_cons_of_mem a hx))]

/-- C4: once the runtime object exists, an invocation short-circuits: it
logs a callback call with exactly that object, marks itself loaded, and
changes nothing else — no script or stylesheet insertion, no promise
created, no waiter registered. -/
theorem claim4_short_circuit_after_success (s : St) (c cb sdk : Nat)
    (u : Bool) (b : Option String)
    (hsdk : s.pipeSDK = some sdk)
    (hfresh : ∀ x ∈ s.callers, (x.id == c) = false) :
    (step s (Event.invoke c cb u b)).scriptInsertLog = s.scriptInsertLog ∧
    (step s (Event.invoke c cb u b)).styleInsertLog = s.styleInsertLog ∧
    (step s (Event.invoke c cb u b)).scripts = s.scripts ∧
    (step s (Event.invoke c cb u b)).stylesheets = s.stylesheets ∧
    (step s (Event.invoke c cb u b)).loadingPromise = s.loadingPromise ∧
    (step s (Event.invoke c cb u b)).promises = s.promises ∧
    (step s (Event.invoke c cb u b)).waiters = s.waiters ∧
    (step s (Event.invoke c cb u b)).cbLog = s.cbLog ++ [⟨c, cb, some sdk⟩] ∧
    (step s (Event.invoke c cb u b)).callers = s.callers ++ [⟨c, cb, true, none⟩] := by
  obtain ⟨p, lp, le, la, sc, ss, sl, stl, hnd, al, pr, wa, ca, cl, ni⟩ := s
  simp only [St.pipeSDK] at hsdk
  simp only [St.callers] at hfresh
  subst hsdk
  have hget : (ca ++ [(⟨c, cb, false, none⟩ : Caller)]).find? (fun x => x.id == c) =
      some ⟨c, cb, false, none⟩ := by
    rw [find?_append_of_none _ _ _ hfresh]
    simp [List.find?]
  have hmap : (ca ++ [(⟨c, cb, false, none⟩ : Caller)]).map
      (fun x => if x.id == c then ({ x with isLoaded := true } : Caller) else x) =
      ca ++ [⟨c, cb, true, none⟩] := by
    rw [List.map_append, map_upd_of_not_mem _ _ _ hfresh]
    simp
  refine ⟨rfl, rfl, rfl, rfl, rfl, rfl, rfl, ?_, ?_⟩
  · show cl ++ [(⟨c, getCb c ⟨some sdk, lp, le, la, sc, ss, sl, stl, hnd, al, pr, wa,
        ca ++ [⟨c, cb, false, none⟩], cl, ni⟩, some sdk⟩ : CbCall)] =
      cl ++ [⟨c, cb, some sdk⟩]
    simp only [getCb]
    rw [hget]
  · show (ca ++ [(⟨c, cb, false, none⟩ : Caller)]).map
        (fun x => if x.id == c then ({ x with isLoaded := true } : Caller) else x) =
      ca ++ [⟨c, cb, true, none⟩]
    exact hmap

/-- Witness for C4 at a concrete state: the runtime object `7` is present,
caller `0` is fresh. -/
theorem claim4_witness :
    (step { initSt with pipeSDK := some 7 } (Event.invoke 0 5 false none)).cbLog =
      [⟨0, 5, some 7⟩] ∧
    (step { initSt with pipeSDK := some 7 } (Event.invoke 0 5 false none)).scriptInsertLog = [] :=
  ⟨(claim4_short_circuit_after_success { initSt with pipeSDK := some 7 } 0 5 7 false none
      rfl (by intro x hx; cases hx)).2.2.2.2.2.2.2.1,
   (claim4_short_circuit_after_success { initSt with pipeSDK := some 7 } 0 5 7 false none
      rfl (by intro x hx; cases hx)).1⟩

end PipeLoader

namespace PipeLoader

/-! ### C1: the same-tick concurrent-start scenario, for any number of
invocations. -/

/-- A same-configuration invocation arriving while the first insertion's
promise is pending registers itself and joins that promise: nothing else
in the state changes. -/
theorem c1_join_step (n i : Nat) (cbs : Nat → Nat) (u : Bool) (b : Option String) :
    step (c1Joined n cbs u b) (Event.invoke i (cbs i) u b) =
      { c1Joined n cbs u b with
        callers := (c1Joined n cbs u b).callers ++ [mkJoinCaller cbs i],
        waiters := (c1Joined n cbs u b).waiters ++ [mkJoinWaiter u b i] } := by
  have hfind : ([(⟨1, scriptSrcOf u b⟩ : ScriptTag)]).find?
      (fun t => t.src == scriptSrcOf u b) = some ⟨1, scriptSrcOf u b⟩ :=
    @List.find?_cons_of_pos ScriptTag (fun t => t.src == scriptSrcOf u b)
      ⟨1, scriptSrcOf u b⟩ []
      (show ((⟨1, scriptSrcOf u b⟩ : ScriptTag).src == scriptSrcOf u b) = true from
        beq_self_eq_true _)
  show (match ([(⟨1, scriptSrcOf u b⟩ : ScriptTag)]).find?
      (fun t => t.src == scriptSrcOf u b) with
    | some tag => joinOrAttach i (scriptSrcOf u b) (stylesheetHrefOf u b) tag.id
        { c1Joined n cbs u b with
          callers := (c1Joined n cbs u b).callers ++ [(⟨i, cbs i, false, none⟩ : Caller)] }
    | none => insertScriptAndStylesheet i (scriptSrcOf u b) (stylesheetHrefOf u b)
        { c1Joined n cbs u b with
          callers := (c1Joined n cbs u b).callers ++ [(⟨i, cbs i, false, none⟩ : Caller)] }) = _
  rw [hfind]
  rfl

/-- Running the first invocation and then `n` joining invocations from the
initial state yields the joined state. -/
theorem c1_joins (n : Nat) (cbs : Nat → Nat) (u : Bool) (b : Option String) :
    run initSt (Event.invoke 0 (cbs 0) u b ::
        (List.range' 1 n).map (fun i => Event.invoke i (cbs i) u b)) =
      c1Joined n cbs u b := by
  induction n with
  | zero => rfl
  | succ n ih =>
    rw [List.range'_1_concat, List.map_append]
    rw [show (Event.invoke 0 (cbs 0) u b ::
        ((List.range' 1 n).map (fun i => Event.invoke i (cbs i) u b) ++
          (List.map (fun i => Event.invoke i (cbs i) u b) [1 + n]))) =
      ((Event.invoke 0 (cbs 0) u b ::
        (List.range' 1 n).map (fun i => Event.invoke i (cbs i) u b)) ++
        [Event.invoke (1 + n) (cbs (1 + n)) u b]) from rfl]
    rw [show run initSt ((Event.invoke 0 (cbs 0) u b ::
        (List.range' 1 n).map (fun i => Event.invoke i (cbs i) u b)) ++
        [Event.invoke (1 + n) (cbs (1 + n)) u b]) =
      step (run initSt (Event.invoke 0 (cbs 0) u b ::
        (List.range' 1 n).map (fun i => Event.invoke i (cbs i) u b)))
        (Event.invoke (1 + n) (cbs (1 + n)) u b) from by
      unfold run; rw [List.foldl_append]; rfl]
    rw [ih, c1_join_step n (1 + n) cbs u b]
    unfold c1Joined
    simp [List.range'_1_concat, List.map_append]

/-- Every joiner's waiter targets promise 0. -/
theorem filter_joinWaiters_pos (u : Bool) (b : Option String) (l : List Nat) :
    (l.map (mkJoinWaiter u b)).filter (fun w => w.prom == 0) =
      l.map (mkJoinWaiter u b) := by
  induction l with
  | nil => rfl
  | cons a l ih => simp [mkJoinWaiter, List.filter_cons, ih]

/-- Detaching the waiters of promise 0 empties the join queue. -/
theorem filter_joinWaiters_neg (u : Bool) (b : Option String) (l : List Nat) :
    (l.map (mkJoinWaiter u b)).filter (fun w => !(w.prom == 0)) = [] := by
  induction l with
  | nil => rfl
  | cons a l ih => simp [mkJoinWaiter, List.filter_cons, ih]

/-- `callbackRef.current` lookups see through an update that keeps each
record's id and cb fields. -/
theorem getCb_map_aux (i c : Nat) (f : Caller → Caller)
    (hid : ∀ x, (f x).id = x.id) (hcb : ∀ x, (f x).cb = x.cb) :
    ∀ l : List Caller,
      (match (l.map (fun x => if x.id == c then f x else x)).find?
          (fun x => x.id == i) with
       | some x => x.cb
       | none => 0) =
      (match l.find? (fun x => x.id == i) with
       | some x => x.cb
       | none => 0) := by
  intro l
  induction l with
  | nil => rfl
  | cons a l ih =>
    by_cases hac : (a.id == c) = true
    · by_cases hai : (a.id == i) = true
      · rw [List.map_cons, if_pos hac,
          @List.find?_cons_of_pos _ (fun x => x.id == i) (f a) _
            (show ((f a).id == i) = true by rw [hid a]; exact hai),
          @List.find?_cons_of_pos _ (fun x => x.id == i) a _ hai]
        exact hcb a
      · rw [List.map_cons, if_pos hac,
          @List.find?_cons_of_neg _ (fun x => x.id == i) (f a) _
            (show ¬ ((f a).id == i) = true by rw [hid a]; exact hai),
          @List.find?_cons_of_neg _ (fun x => x.id == i) a _ hai]
        exact ih
    · by_cases hai : (a.id == i) = true
      · rw [List.map_cons, if_neg hac,
          @List.find?_cons_of_pos _ (fun x => x.id == i) a _ hai,
          @List.find?_cons_of_pos _ (fun x => x.id == i) a _ hai]
      · rw [List.map_cons, if_neg hac,
          @List.find?_cons_of_neg _ (fun x => x.id == i) a _ hai,
          @List.find?_cons_of_neg _ (fun x => x.id == i) a _ hai]
        exact ih

/-- `getCb` is unchanged by marking some invocation loaded. -/
theorem getCb_setLoaded (i c : Nat) (s : St) :
    getCb i (updCaller c (fun x => { x with isLoaded := true }) s) = getCb i s := by
  show (match (s.callers.map (fun x =>
        if x.id == c then ({ x with isLoaded := true } : Caller) else x)).find?
      (fun x => x.id == i) with
    | some x => x.cb
    | none => 0) =
    (match s.callers.find? (fun x => x.id == i) with
     | some x => x.cb
     | none => 0)
  exact getCb_map_aux i c (fun x => { x with isLoaded := true })
    (fun x => rfl) (fun x => rfl) s.callers

/-- `getCb` is unchanged by logging a callback call. -/
theorem getCb_invokeCb (i a : Nat) (s : St) : getCb i (invokeCb a s) = getCb i s := rfl

/-- Looking up joiner `i` among the join callers yields its record. -/
theorem find?_joinCallers (cbs : Nat → Nat) (i : Nat) :
    ∀ l : List Nat, i ∈ l →
      (l.map (mkJoinCaller cbs)).find? (fun x => x.id == i) =
        some (mkJoinCaller cbs i) := by
  intro l
  induction l with
  | nil => intro h; cases h
  | cons a l ih =>
    intro h
    by_cases hai : (a == i) = true
    · have ha : a = i := by simpa using hai
      rw [List.map_cons,
        @List.find?_cons_of_pos _ (fun x => x.id == i) (mkJoinCaller cbs a) _
          (show ((mkJoinCaller cbs a).id == i) = true by simpa [mkJoinCaller] using hai),
        ha]
    · rw [List.map_cons,
        @List.find?_cons_of_neg _ (fun x => x.id == i) (mkJoinCaller cbs a) _
          (show ¬ ((mkJoinCaller cbs a).id == i) = true by simpa [mkJoinCaller] using hai)]
      rcases List.mem_cons.mp h with h1 | h1
      · exact absurd (by simp [h1]) hai
      · exact ih h1

/-- Looking up joiner `i`'s callback ref in the join caller list (with the
inserter's record at the head) yields `cbs i`. -/
theorem joined_lookup (cbs : Nat → Nat) (n i : Nat) (hi : i ∈ List.range' 1 n)
    (hi1 : 1 ≤ i) :
    (match (mkJoinCaller cbs 0 :: (List.range' 1 n).map (mkJoinCaller cbs)).find?
        (fun x => x.id == i) with
      | some x => x.cb
      | none => 0) = cbs i := by
  rw [@List.find?_cons_of_neg _ (fun x => x.id == i) (mkJoinCaller cbs 0) _
      (show ¬ (((mkJoinCaller cbs 0).id == i) = true) by simp [mkJoinCaller]; omega),
    find?_joinCallers cbs i (List.range' 1 n) hi]
  rfl

/-- Resuming the joined awaits after a successful resolution: each one logs
a callback call with the present runtime object and leaves the insertion
logs and `window.PipeSDK` untouched. -/
theorem runWaiters_ok_facts (u : Bool) (b : Option String) (v : Option Nat) (sdk : Nat) :
    ∀ (l : List Nat) (s : St), s.pipeSDK = some sdk →
      (runWaiters (l.map (mkJoinWaiter u b)) (Outcome.ok v) s).scriptInsertLog =
        s.scriptInsertLog ∧
      (runWaiters (l.map (mkJoinWaiter u b)) (Outcome.ok v) s).styleInsertLog =
        s.styleInsertLog ∧
      (runWaiters (l.map (mkJoinWaiter u b)) (Outcome.ok v) s).pipeSDK = some sdk ∧
      (runWaiters (l.map (mkJoinWaiter u b)) (Outcome.ok v) s).attListeners =
        s.attListeners ∧
      (runWaiters (l.map (mkJoinWaiter u b)) (Outcome.ok v) s).cbLog =
        s.cbLog ++ l.map (fun i => (⟨i, getCb i s, some sdk⟩ : CbCall)) := by
  intro l
  induction l with
  | nil => intro s h; exact ⟨rfl, rfl, h, rfl, by simp [runWaiters]⟩
  | cons a l ih =>
    intro s h
    have hcont : runWaiterCont (mkJoinWaiter u b a) (Outcome.ok v) s =
        updCaller a (fun c => { c with isLoaded := true }) (invokeCb a s) := by
      show (match s.pipeSDK with
        | some _ => updCaller (mkJoinWaiter u b a).caller
            (fun c => { c with isLoaded := true })
            (invokeCb (mkJoinWaiter u b a).caller s)
        | none => s) = _
      rw [h]
      rfl
    rw [List.map_cons]
    simp only [runWaiters]
    rw [hcont]
    obtain ⟨e1, e2, e3, e4, e5⟩ := ih (updCaller a (fun c => { c with isLoaded := true })
      (invokeCb a s)) h
    refine ⟨e1, e2, e3, e4, ?_⟩
    rw [e5]
    have hlog : (updCaller a (fun c => { c with isLoaded := true })
        (invokeCb a s)).cbLog = s.cbLog ++ [⟨a, getCb a s, s.pipeSDK⟩] := rfl
    rw [hlog, h, List.append_assoc]
    rw [List.map_congr_left (fun i _ =>
      show (⟨i, getCb i (updCaller a (fun c => { c with isLoaded := true })
          (invokeCb a s)), some sdk⟩ : CbCall) = ⟨i, getCb i s, some sdk⟩ by
        rw [getCb_setLoaded, getCb_invokeCb])]
    rfl

/-- Delivering the load event to the inserted script in the joined state:
the handler resolves, logs the inserter's callback, and hands the join
queue to the microtask resumption. -/
theorem c1_load_eq (n : Nat) (cbs : Nat → Nat) (u : Bool) (b : Option String)
    (sdk : Nat) :
    step (c1Joined n cbs u b) (Event.load 1 (some sdk)) =
      attLoadAll (((runWaiters ((List.range' 1 n).map (mkJoinWaiter u b))
            (Outcome.ok (some sdk))
            (c1Resolved n cbs u b sdk)).attListeners).filter (fun l => l.tag == 1))
        (runWaiters ((List.range' 1 n).map (mkJoinWaiter u b)) (Outcome.ok (some sdk))
          (c1Resolved n cbs u b sdk)) := by
  show attLoadAll (((runWaiters
        (((List.range' 1 n).map (mkJoinWaiter u b)).filter (fun w => w.prom == 0))
        (Outcome.ok (some sdk))
        { c1Resolved n cbs u b sdk with
          waiters := ((List.range' 1 n).map (mkJoinWaiter u b)).filter
            (fun w => !(w.prom == 0)) }).attListeners).filter (fun l => l.tag == 1))
      (runWaiters (((List.range' 1 n).map (mkJoinWaiter u b)).filter
          (fun w => w.prom == 0))
        (Outcome.ok (some sdk))
        { c1Resolved n cbs u b sdk with
          waiters := ((List.range' 1 n).map (mkJoinWaiter u b)).filter
            (fun w => !(w.prom == 0)) }) = _
  rw [filter_joinWaiters_pos, filter_joinWaiters_neg]
  rfl

/-- The observable facts after the load event in the C1 scenario. -/
theorem c1_load_facts (n : Nat) (cbs : Nat → Nat) (u : Bool) (b : Option String)
    (sdk : Nat) :
    (step (c1Joined n cbs u b) (Event.load 1 (some sdk))).scriptInsertLog =
      [scriptSrcOf u b] ∧
    (step (c1Joined n cbs u b) (Event.load 1 (some sdk))).styleInsertLog =
      [stylesheetHrefOf u b] ∧
    (step (c1Joined n cbs u b) (Event.load 1 (some sdk))).pipeSDK = some sdk ∧
    (step (c1Joined n cbs u b) (Event.load 1 (some sdk))).cbLog =
      (⟨0, cbs 0, some sdk⟩ : CbCall) ::
        (List.range' 1 n).map (fun i => (⟨i, cbs i, some sdk⟩ : CbCall)) := by
  obtain ⟨e1, e2, e3, e4, e5⟩ := runWaiters_ok_facts u b (some sdk) sdk (List.range' 1 n)
    (c1Resolved n cbs u b sdk) rfl
  have hatt : (runWaiters ((List.range' 1 n).map (mkJoinWaiter u b))
      (Outcome.ok (some sdk)) (c1Resolved n cbs u b sdk)).attListeners = [] :=
    e4.trans rfl
  rw [c1_load_eq, hatt, List.filter_nil]
  simp only [attLoadAll]
  refine ⟨e1, e2, e3, ?_⟩
  rw [e5]
  rw [List.map_congr_left (fun i hi =>
    show (⟨i, getCb i (c1Resolved n cbs u b sdk), some sdk⟩ : CbCall) =
        ⟨i, cbs i, some sdk⟩ by
      have h1 : 1 ≤ i := (List.mem_range'_1.mp hi).1
      have h2 : getCb i (c1Resolved n cbs u b sdk) =
          (match (mkJoinCaller cbs 0 :: (List.range' 1 n).map (mkJoinCaller cbs)).find?
              (fun x => x.id == i) with
            | some x => x.cb
            | none => 0) := by
        show (match ((mkJoinCaller cbs 0 :: (List.range' 1 n).map (mkJoinCaller cbs)).map
            (fun x => if x.id == 0 then ({ x with isLoaded := true } : Caller) else x)).find?
            (fun x => x.id == i) with
          | some x => x.cb
          | none => 0) = _
        exact getCb_map_aux i 0 (fun x => { x with isLoaded := true })
          (fun x => rfl) (fun x => rfl) _
      rw [h2, joined_lookup cbs n i hi h1])]
  rfl

/-- C1: for any number `n + 1` of same-tick invocations with the same
configuration starting from a pristine environment, exactly one script (and
one stylesheet) with the computed URL is inserted; the later invocations
join the first insertion's promise, and on load success every invocation's
supplied callback is invoked with the same runtime object
(`window.PipeSDK`). -/
theorem claim1_singleton_concurrent_load (n : Nat) (cbs : Nat → Nat) (u : Bool)
    (b : Option String) (sdk : Nat) :
    (run initSt (Event.invoke 0 (cbs 0) u b ::
        (List.range' 1 n).map (fun i => Event.invoke i (cbs i) u b))).waiters =
      (List.range' 1 n).map (mkJoinWaiter u b) ∧
    (run initSt (Event.invoke 0 (cbs 0) u b ::
        (List.range' 1 n).map (fun i => Event.invoke i (cbs i) u b))).loadingPromise =
      some 0 ∧
    (run initSt (c1Events n cbs u b sdk)).scriptInsertLog = [scriptSrcOf u b] ∧
    (run initSt (c1Events n cbs u b sdk)).styleInsertLog = [stylesheetHrefOf u b] ∧
    (run initSt (c1Events n cbs u b sdk)).pipeSDK = some sdk ∧
    (run initSt (c1Events n cbs u b sdk)).cbLog =
      (⟨0, cbs 0, some sdk⟩ : CbCall) ::
        (List.range' 1 n).map (fun i => (⟨i, cbs i, some sdk⟩ : CbCall)) := by
  have hjoin := c1_joins n cbs u b
  have hsplit : c1Events n cbs u b sdk =
      (Event.invoke 0 (cbs 0) u b ::
        (List.range' 1 n).map (fun i => Event.invoke i (cbs i) u b)) ++
        [Event.load 1 (some sdk)] := rfl
  have hrun : run initSt ((Event.invoke 0 (cbs 0) u b ::
      (List.range' 1 n).map (fun i => Event.invoke i (cbs i) u b)) ++
      [Event.load 1 (some sdk)]) =
    step (run initSt (Event.invoke 0 (cbs 0) u b ::
      (List.range' 1 n).map (fun i => Event.invoke i (cbs i) u b)))
      (Event.load 1 (some sdk)) := by
    unfold run
    rw [List.foldl_append]
    rfl
  obtain ⟨f1, f2, f3, f4⟩ := c1_load_facts n cbs u b sdk
  rw [hsplit, hrun, hjoin]
  exact ⟨rfl, rfl, f1, f2, f3, f4⟩

end PipeLoader

namespace PipeLoader

/-! ### C10: the callback-safety invariant, preserved by every event. -/

/-- The initial state satisfies the invariant. -/
theorem Inv_initSt : Inv initSt := by
  refine ⟨?_, ?_⟩ <;> intro x hx <;> simp [initSt] at hx

/-- `orElse` onto a present option stays present. -/
theorem orElse_isSome (a b : Option Nat) (hb : b.isSome = true) :
    (a.orElse (fun _ => b)).isSome = true := by
  cases a <;> simp [Option.orElse, hb]

/-- A caller update that does not touch `isLoaded` preserves the
invariant. -/
theorem Inv_updCaller_keepLoaded (c : Nat) (f : Caller → Caller)
    (hf : ∀ x, (f x).isLoaded = x.isLoaded) (s : St) (h : Inv s) :
    Inv (updCaller c f s) := by
  obtain ⟨h1, h2⟩ := h
  refine ⟨h1, ?_⟩
  intro x hx hl
  obtain ⟨y, hy, hxy⟩ := List.mem_map.mp hx
  refine h2 y hy ?_
  by_cases hyc : (y.id == c) = true
  · rw [if_pos hyc] at hxy
    rw [← hxy, hf y] at hl
    exact hl
  · rw [if_neg hyc] at hxy
    rw [← hxy] at hl
    exact hl

/-- Marking a caller loaded preserves the invariant when the runtime
object is present. -/
theorem Inv_updCaller_setLoaded (c : Nat) (s : St) (hsdk : s.pipeSDK.isSome = true)
    (h : Inv s) : Inv (updCaller c (fun x => { x with isLoaded := true }) s) :=
  ⟨h.1, fun _ _ _ => hsdk⟩

/-- Logging a callback call preserves the invariant when the runtime
object is present (the logged argument is `window.PipeSDK` itself). -/
theorem Inv_invokeCb (a : Nat) (s : St) (hsdk : s.pipeSDK.isSome = true)
    (h : Inv s) : Inv (invokeCb a s) := by
  obtain ⟨h1, h2⟩ := h
  refine ⟨?_, h2⟩
  intro e he
  rcases List.mem_append.mp he with h3 | h3
  · exact h1 e h3
  · rw [List.mem_singleton.mp h3]
    exact hsdk

/-- Inserting the script and stylesheet touches neither the callback log,
the callers, nor the runtime object. -/
theorem Inv_insert (c : Nat) (src css : String) (s : St) (h : Inv s) :
    Inv (insertScriptAndStylesheet c src css s) := h

/-- The shared shape of the resolution path: call the invocation's current
callback and mark it loaded only when `window.PipeSDK` is present. -/
theorem Inv_resolveStep (a : Nat) (s : St) (h : Inv s) :
    Inv (match s.pipeSDK with
      | some _ => updCaller a (fun c => { c with isLoaded := true }) (invokeCb a s)
      | none => s) := by
  cases hp : s.pipeSDK with
  | none => exact h
  | some x =>
    exact Inv_updCaller_setLoaded a _ (show s.pipeSDK.isSome = true by rw [hp]; rfl)
      (Inv_invokeCb a s (by rw [hp]; rfl) h)

/-- A resumed await preserves the invariant. -/
theorem Inv_runWaiterCont (w : Waiter) (out : Outcome) (s : St) (h : Inv s) :
    Inv (runWaiterCont w out s) := by
  cases out with
  | ok v => exact Inv_resolveStep w.caller s h
  | err e =>
    show Inv (if (updCaller w.caller (fun c => { c with error := some e }) s).loadAttempts <
        MAX_LOAD_ATTEMPTS then _ else _)
    have h1 : Inv (updCaller w.caller (fun c => { c with error := some e }) s) :=
      Inv_updCaller_keepLoaded w.caller (fun c => { c with error := some e })
        (fun x => rfl) s h
    by_cases hc : (updCaller w.caller (fun c => { c with error := some e }) s).loadAttempts <
        MAX_LOAD_ATTEMPTS
    · rw [if_pos hc]
      exact Inv_insert w.caller w.src w.css _ h1
    · rw [if_neg hc]
      exact h1

/-- Resuming a whole queue of awaits preserves the invariant. -/
theorem Inv_runWaiters (out : Outcome) :
    ∀ (ws : List Waiter) (s : St), Inv s → Inv (runWaiters ws out s) := by
  intro ws
  induction ws with
  | nil => intro s h; exact h
  | cons w ws ih => intro s h; exact ih _ (Inv_runWaiterCont w out s h)

/-- The inserted script's `onload` handler preserves the invariant. -/
theorem Inv_insOnLoad (hd : InsHandler) (s : St) (h : Inv s) :
    Inv (insOnLoad hd s) := by
  apply Inv_runWaiters
  exact Inv_resolveStep hd.caller _ h

/-- The inserted script's `onerror` handler preserves the invariant. -/
theorem Inv_insOnError (hd : InsHandler) (s : St) (h : Inv s) :
    Inv (insOnError hd s) := by
  apply Inv_runWaiters
  exact h

/-- The attached `load` listener preserves the invariant. -/
theorem Inv_attOnLoad (l : AttListener) (s : St) (h : Inv s) :
    Inv (attOnLoad l s) := by
  apply Inv_runWaiters
  exact h

/-- The attached `error` listener preserves the invariant. -/
theorem Inv_attOnError (l : AttListener) (s : St) (h : Inv s) :
    Inv (attOnError l s) := by
  apply Inv_runWaiters
  exact h

/-- Firing every attached `load` listener preserves the invariant. -/
theorem Inv_attLoadAll :
    ∀ (ls : List AttListener) (s : St), Inv s → Inv (attLoadAll ls s) := by
  intro ls
  induction ls with
  | nil => intro s h; exact h
  | cons a ls ih => intro s h; exact ih _ (Inv_attOnLoad a s h)

/-- Firing every attached `error` listener preserves the invariant. -/
theorem Inv_attErrorAll :
    ∀ (ls : List AttListener) (s : St), Inv s → Inv (attErrorAll ls s) := by
  intro ls
  induction ls with
  | nil => intro s h; exact h
  | cons a ls ih => intro s h; exact ih _ (Inv_attOnError a s h)

/-- Dispatch on whether the tag has an inserted `onload` handler. -/
theorem Inv_findHandlerLoad (t : Nat) (s : St) (h : Inv s) :
    Inv (match s.insHandlers.find? (fun hd => hd.tag == t) with
      | some hd => insOnLoad hd s
      | none => s) := by
  cases s.insHandlers.find? (fun hd => hd.tag == t) with
  | none => exact h
  | some hd => exact Inv_insOnLoad hd s h

/-- Dispatch on whether the tag has an inserted `onerror` handler. -/
theorem Inv_findHandlerError (t : Nat) (s : St) (h : Inv s) :
    Inv (match s.insHandlers.find? (fun hd => hd.tag == t) with
      | some hd => insOnError hd s
      | none => s) := by
  cases s.insHandlers.find? (fun hd => hd.tag == t) with
  | none => exact h
  | some hd => exact Inv_insOnError hd s h

/-- A `load` event preserves the invariant: `window.PipeSDK` can only go
from absent to present, and every handler obeys the resolution shape. -/
theorem Inv_fireLoad (t : Nat) (sdk : Option Nat) (s : St) (h : Inv s) :
    Inv (fireLoad t sdk s) := by
  have h1 : Inv ({ s with pipeSDK := sdk.orElse (fun _ => s.pipeSDK) } : St) :=
    ⟨h.1, fun c hc hl => orElse_isSome sdk s.pipeSDK (h.2 c hc hl)⟩
  unfold fireLoad
  by_cases hc : ((s.scripts.find? (fun tag => tag.id == t)).isSome) = true
  · rw [if_pos hc]
    apply Inv_attLoadAll
    exact Inv_findHandlerLoad t _ h1
  · rw [if_neg hc]
    exact h

/-- An `error` event preserves the invariant. -/
theorem Inv_fireError (t : Nat) (s : St) (h : Inv s) : Inv (fireError t s) := by
  unfold fireError
  by_cases hc : ((s.scripts.find? (fun tag => tag.id == t)).isSome) = true
  · rw [if_pos hc]
    apply Inv_attErrorAll
    exact Inv_findHandlerError t _ h
  · rw [if_neg hc]
    exact h

/-- Joining the in-flight promise preserves the invariant. -/
theorem Inv_joinProm (c : Nat) (src css : String) (tagId p : Nat) (s : St)
    (h : Inv s) : Inv (joinProm c src css tagId p s) := by
  unfold joinProm
  cases findPromStatus p s with
  | pending => exact h
  | resolvedP v => exact Inv_runWaiterCont _ _ _ h
  | rejectedP e => exact Inv_runWaiterCont _ _ _ h

/-- Attaching to an existing tag preserves the invariant. -/
theorem Inv_attachToTag (c : Nat) (src css : String) (tagId : Nat) (s : St)
    (h : Inv s) : Inv (attachToTag c src css tagId s) := by
  obtain ⟨p, lp, le, la, sc, ss, sl, stl, hnd, al, pr, wa, ca, cl, ni⟩ := s
  cases p with
  | some v => exact Inv_runWaiterCont _ _ _ ⟨h.1, fun x hx hl => rfl⟩
  | none =>
    refine ⟨h.1, ?_⟩
    intro x hx hl
    exact h.2 x hx hl

/-- The join-or-attach handling of an existing tag preserves the
invariant. -/
theorem Inv_joinOrAttach (c : Nat) (src css : String) (tagId : Nat) (s : St)
    (h : Inv s) : Inv (joinOrAttach c src css tagId s) := by
  unfold joinOrAttach
  cases s.loadingPromise with
  | some p => exact Inv_joinProm c src css tagId p s h
  | none => exact Inv_attachToTag c src css tagId s h

/-- The body of the loading effect preserves the invariant, whatever
branch it takes. -/
theorem Inv_invokeBody (c : Nat) (src css : String) (s : St) (h : Inv s) :
    Inv (invokeBody c src css s) := by
  unfold invokeBody
  cases hp : s.pipeSDK with
  | some x =>
    exact Inv_updCaller_setLoaded c _ (show s.pipeSDK.isSome = true by rw [hp]; rfl)
      (Inv_invokeCb c s (show s.pipeSDK.isSome = true by rw [hp]; rfl) h)
  | none =>
    by_cases hg : MAX_LOAD_ATTEMPTS ≤ s.loadAttempts ∧ s.loadError.isSome = true
    · rw [if_pos hg]
      exact Inv_updCaller_keepLoaded c (fun x => { x with error := s.loadError })
        (fun x => rfl) s h
    · rw [if_neg hg]
      cases hfind : s.scripts.find? (fun t => t.src == src) with
      | none => exact Inv_insert c src css s h
      | some tag => exact Inv_joinOrAttach c src css tag.id s h

/-- Registering a new, not-yet-loaded invocation preserves the
invariant. -/
theorem Inv_addCaller (c cb : Nat) (s : St) (h : Inv s) :
    Inv ({ s with callers := s.callers ++ [⟨c, cb, false, none⟩] } : St) := by
  obtain ⟨h1, h2⟩ := h
  refine ⟨h1, ?_⟩
  intro x hx hl
  rcases List.mem_append.mp hx with h3 | h3
  · exact h2 x h3 hl
  · rw [List.mem_singleton.mp h3] at hl
    exact Bool.noConfusion hl

/-- Every event preserves the invariant. -/
theorem Inv_step (s : St) (e : Event) (h : Inv s) : Inv (step s e) := by
  cases e with
  | invoke c cb u b => exact Inv_invokeBody c _ _ _ (Inv_addCaller c cb s h)
  | updateCb c cb =>
    exact Inv_updCaller_keepLoaded c (fun x => { x with cb := cb }) (fun x => rfl) s h
  | load t sdk => exact Inv_fireLoad t sdk s h
  | failTag t => exact Inv_fireError t s h
  | foreignInsert src => exact h

/-- The invariant holds along every run from an invariant state. -/
theorem Inv_run : ∀ (evs : List Event) (s : St), Inv s → Inv (run s evs) := by
  intro evs
  induction evs with
  | nil => intro s h; exact h
  | cons e evs ih => intro s h; exact ih _ (Inv_step s e h)

/-- C10: in every state reachable from the initial one, the caller-supplied
callback has never been invoked with an absent runtime object — every
logged call's argument (the value of `window.PipeSDK` read at the guarded
call site) is present — and `isLoaded` is true for an invocation only when
the runtime object is present. -/
theorem claim10_callback_never_without_runtime (evs : List Event) :
    Inv (run initSt evs) :=
  Inv_run evs initSt Inv_initSt

end PipeLoader
